import Mathlib

/-!
Shallow embedding of `pyfor/cloud.py` (classes `CloudData` and `Cloud`).

Coordinates and elevations are modelled as rationals.  A point record carries
the nine dataframe columns built in `Cloud.__init__`.  The laspy header is
modelled by its bookkeeping fields (`min`, `max`, `count`, here `hmin`,
`hmax`, `count`) plus an abstract `meta` field standing for all remaining
file metadata.  `LasHeader` distinguishes a `laspy.header.HeaderManager`
(which `CloudData.__init__` copies) from any other header object (which it
aliases); functions that construct a `CloudData` therefore also return the
value observed through the original header reference after the call, so the
header-aliasing side effect of the Python code is visible in the model.

`np.min` / `np.max` over an empty column produce no usable number (a
`ValueError` on arrays, `NaN` on series); they are modelled as `Option`,
with `none` when the column is empty, and every operation whose header
bookkeeping hits that case is modelled as failing (`none`).
-/

namespace Pyfor

/-- A point record: the nine columns of the dataframe built in
`Cloud.__init__` (`x`, `y`, `z`, `intensity`, `classification`,
`flag_byte`, `scan_angle_rank`, `user_data`, `pt_src_id`). -/
structure PointRec where
  x : ℚ
  y : ℚ
  z : ℚ
  intensity : ℤ
  classification : ℤ
  flag_byte : ℤ
  scan_angle_rank : ℤ
  user_data : ℤ
  pt_src_id : ℤ
deriving DecidableEq, Inhabited

/-- The header bookkeeping fields: `header.min` (as `hmin`), `header.max`
(as `hmax`), `header.count`, and `meta`, an abstract stand-in for all the
other file metadata a laspy header carries. -/
structure Header where
  hmin : ℚ × ℚ × ℚ
  hmax : ℚ × ℚ × ℚ
  count : ℕ
  meta : ℤ
deriving DecidableEq, Inhabited

/-- A header object: either a `laspy.header.HeaderManager` or some other
header-like object (the `type(header) == laspy.header.HeaderManager` test
in `CloudData.__init__` and `CloudData.write`). -/
inductive LasHeader where
  | manager (h : Header)
  | other (h : Header)
deriving DecidableEq, Inhabited

/-- The bookkeeping fields of a header object. -/
def headerOf : LasHeader → Header
  | .manager h => h
  | .other h => h

/-- Python `np.min` over a column, `none` on an empty column. -/
def qmin : List ℚ → Option ℚ
  | [] => none
  | a :: r =>
    some (match qmin r with
          | none => a
          | some m => Min.min a m)

/-- Python `np.max` over a column, `none` on an empty column. -/
def qmax : List ℚ → Option ℚ
  | [] => none
  | a :: r =>
    some (match qmax r with
          | none => a
          | some m => Max.max a m)

/-- The bound bookkeeping done at the end of `CloudData.__init__`:
`header.min = [np.min(x), np.min(y), np.min(z)]`,
`header.max = [np.max(x), np.max(y), np.max(z)]`,
`header.count = np.alen(points)`.  Fails (`none`) when the point set is
empty, since the reductions produce no number there. -/
def setBounds (h : Header) (ps : List PointRec) : Option Header :=
  match qmin (ps.map PointRec.x), qmin (ps.map PointRec.y), qmin (ps.map PointRec.z),
        qmax (ps.map PointRec.x), qmax (ps.map PointRec.y), qmax (ps.map PointRec.z) with
  | some ax, some ay, some az, some bx, some mby, some bz =>
      some { h with hmin := (ax, ay, az), hmax := (bx, mby, bz), count := ps.length }
  | _, _, _, _, _, _ => none

/-- The state of a `CloudData` object: the dataframe `points` and the cached
column attributes `self.x`, `self.y`, `self.z` set in `__init__`, plus the
header object. -/
structure CloudData where
  points : List PointRec
  x : List ℚ
  y : List ℚ
  z : List ℚ
  header : LasHeader
deriving DecidableEq, Inhabited

/-- `CloudData.__init__(points, header)`.  A `HeaderManager` is copied
(`header.copy()`); any other header object is aliased.  The bounds and the
count are then written into the held header.  The second component of the
result is the value observed through the caller's original header reference
after construction: unchanged for the copied `HeaderManager`, the updated
object itself in the aliased case. -/
def mkCloudData (ps : List PointRec) (hd : LasHeader) : Option (CloudData × LasHeader) :=
  match setBounds (headerOf hd) ps with
  | none => none
  | some h1 =>
    match hd with
    | .manager _ =>
        some ({ points := ps, x := ps.map PointRec.x, y := ps.map PointRec.y,
                z := ps.map PointRec.z, header := .manager h1 }, hd)
    | .other _ =>
        some ({ points := ps, x := ps.map PointRec.x, y := ps.map PointRec.y,
                z := ps.map PointRec.z, header := .other h1 }, .other h1)

/-- `CloudData.write(path)`: writes the points to `path` only when the
header is a `HeaderManager`; otherwise it just prints a message.  The first
component is the file written (`none` when nothing is written), the second
the state of the `CloudData` after the call. -/
def CloudData.write (cd : CloudData) (path : String) : Option (String × List PointRec) × CloudData :=
  match cd.header with
  | .manager _ => (some (path, cd.points), cd)
  | .other _ => (none, cd)

/-- A las file as laspy presents it: one list per column plus the file
header (a `HeaderManager`). -/
structure LasFile where
  x : List ℚ
  y : List ℚ
  z : List ℚ
  intensity : List ℤ
  classification : List ℤ
  flag_byte : List ℤ
  scan_angle_rank : List ℤ
  user_data : List ℤ
  pt_src_id : List ℤ
  header : Header
deriving DecidableEq, Inhabited

/-- The dataframe built in `Cloud.__init__` from a laspy file: one row per
point, with the nine columns read off the file. -/
def lasPoints (f : LasFile) : List PointRec :=
  (List.range f.x.length).map (fun i =>
    { x := f.x.getD i 0, y := f.y.getD i 0, z := f.z.getD i 0,
      intensity := f.intensity.getD i 0,
      classification := f.classification.getD i 0,
      flag_byte := f.flag_byte.getD i 0,
      scan_angle_rank := f.scan_angle_rank.getD i 0,
      user_data := f.user_data.getD i 0,
      pt_src_id := f.pt_src_id.getD i 0 })

/-- The argument of the `Cloud` constructor: a path to a las file (modelled
by the file it denotes), a `CloudData` object, or any other object (for
example a `laspy.file.File`), abstracted by an integer tag. -/
inductive CloudSource where
  | path (f : LasFile)
  | data (cd : CloudData)
  | other (obj : ℤ)

/-- The state of a `Cloud` object: `las` is `none` when the constructor's
unsupported-input branch ran and the attribute was never set. -/
structure Cloud where
  las : Option CloudData
deriving DecidableEq, Inhabited

/-- `Cloud.__init__(las)`: a path string is loaded through laspy into a
dataframe and wrapped in a `CloudData`; a `CloudData` is stored as is; any
other object only triggers a printed message and leaves `las` unset. -/
def mkCloud : CloudSource → Option Cloud
  | .path f => (mkCloudData (lasPoints f) (.manager f.header)).map (fun r => ⟨some r.1⟩)
  | .data cd => some ⟨some cd⟩
  | .other _ => some ⟨none⟩

/-- Modelled from the spec: the polygon used by `clip_funcs.poly_clip`
(external, not under `src/`), abstracted by its ray-casting containment
test on planar coordinates. -/
structure PolyGeom where
  inside : ℚ → ℚ → Bool

/-- The geometry argument of `Cloud.clip`: a 4-tuple of bounding-box
coordinates, an OGR polygon geometry, or a tuple of a point and a radius. -/
inductive Geometry where
  | square (bbox : ℚ × ℚ × ℚ × ℚ)
  | polygon (pg : PolyGeom)
  | circle (center : ℚ × ℚ) (radius : ℚ)

/-- Modelled from the spec: `clip_funcs.square_clip` (external, not under
`src/`) returns a boolean mask over the cloud's points selecting those
whose planar coordinates lie in the bounding box `(minx, maxx, miny, maxy)`. -/
def square_clip (cd : CloudData) (g : ℚ × ℚ × ℚ × ℚ) : List Bool :=
  cd.points.map (fun p =>
    decide (g.1 ≤ p.x) && decide (p.x ≤ g.2.1) &&
    decide (g.2.2.1 ≤ p.y) && decide (p.y ≤ g.2.2.2))

/-- `points[mask]`: the subset of the rows selected by a boolean mask. -/
def maskFilter (ps : List PointRec) (mask : List Bool) : List PointRec :=
  (ps.zip mask).filterMap (fun pb => if pb.2 then some pb.1 else none)

/-- Modelled from the spec: `clip_funcs.poly_clip` (external, not under
`src/`) returns the rows whose coordinates the ray-casting test reports
inside the polygon. -/
def poly_clip (cd : CloudData) (pg : PolyGeom) : List PointRec :=
  cd.points.filter (fun p => pg.inside p.x p.y)

/-- The body of `Cloud.clip(geometry)` on the `CloudData` held in
`self.las`.  A 4-tuple takes the square-clip branch, an OGR geometry the
polygon branch; any other geometry (in particular the advertised
point-and-radius circle) matches no branch, so `keep_points` is never
assigned and the `return` raises `UnboundLocalError` (`none`).  On success
the result is the new `Cloud` together with the post-call value of the
source cloud's header reference (see `mkCloudData`). -/
def clipData (cd : CloudData) (g : Geometry) : Option (Cloud × LasHeader) :=
  match g with
  | .square bbox =>
      (mkCloudData (maskFilter cd.points (square_clip cd bbox)) cd.header).map
        (fun r => (⟨some r.1⟩, r.2))
  | .polygon pg =>
      (mkCloudData (poly_clip cd pg) cd.header).map (fun r => (⟨some r.1⟩, r.2))
  | .circle _ _ => none

/-- `Cloud.clip(geometry)`: see `clipData`; accessing `self.las` on a cloud
whose constructor rejected its input raises (`none`). -/
def Cloud.clip (c : Cloud) (g : Geometry) : Option (Cloud × LasHeader) :=
  match c.las with
  | none => none
  | some cd => clipData cd g

/-- Writes the given bounds and count into the header object held by a
`LasHeader` (the header reform at the end of `Cloud.filter_z`). -/
def setHB (hd : LasHeader) (mn mx : ℚ × ℚ × ℚ) (c : ℕ) : LasHeader :=
  match hd with
  | .manager h => .manager { h with hmin := mn, hmax := mx, count := c }
  | .other h => .other { h with hmin := mn, hmax := mx, count := c }

/-- Numpy-style positional slicing `points[:, j]` applied to the point
table.  In this module the table is always a pandas `DataFrame`: it is
built as one in `Cloud.__init__` and stays one through `clip`
(`points[mask]`) and `normalize` (column assignment), and a `DataFrame`
rejects positional `[:, j]` indexing with a `TypeError`, modelled as
`none`.  (`filter_z` was left behind by the migration from an earlier
array-backed representation; see the "update this to new pandas
framework" TODOs elsewhere in the file.) -/
def dfSliceCol (_ps : List PointRec) (_j : ℕ) : Option (List ℚ) := none

/-- The body of `Cloud.filter_z(min, max)` on the `CloudData` held in
`self.las`, transcribed statement by statement: the filter condition reads
`self.las.points[:, 2]`, the kept rows would replace `points`, the cached
columns would be re-read with `[:, 0]`, `[:, 1]`, `[:, 2]`, and the header
bounds and count would be reformed.  Every one of those column reads goes
through the numpy-style slice `dfSliceCol`, which raises on the dataframe,
so the very first one (the filter condition) fails and the method raises
`TypeError` on every input, before filtering anything or touching the
header. -/
def filterZData (cd : CloudData) (mn mx : ℚ) : Option CloudData :=
  match dfSliceCol cd.points 2 with
  | none => none
  | some zcol =>
    let condition := zcol.map (fun v => decide (mn < v) && decide (v < mx))
    let kept := maskFilter cd.points condition
    match dfSliceCol kept 0, dfSliceCol kept 1, dfSliceCol kept 2 with
    | some xs, some ys, some zs =>
      (match qmin xs, qmin ys, qmin zs, qmax xs, qmax ys, qmax zs with
       | some ax, some ay, some az, some bx, some mby, some bz =>
           some { points := kept, x := xs, y := ys, z := zs,
                  header := setHB cd.header (ax, ay, az) (bx, mby, bz) kept.length }
       | _, _, _, _, _, _ => none)
    | _, _, _ => none

/-- `Cloud.filter_z(min, max)`: see `filterZData`; accessing `self.las` on
a cloud whose constructor rejected its input raises (`none`). -/
def Cloud.filter_z (c : Cloud) (mn mx : ℚ) : Option CloudData :=
  match c.las with
  | none => none
  | some cd => filterZData cd mn mx

/-- The pointwise replacement of the `z` column performed by
`self.las.points['z'] = dem_grid.data['z']`. -/
def zipWithZ (ps : List PointRec) (dem : List ℚ) : List PointRec :=
  List.zipWith (fun p v => { p with z := v }) ps dem

/-- `Cloud.normalize(cell_size)`.  Modelled from the spec: the DEM column
`grid(cell_size).normalize().data['z']` is produced by the external
`rasterizer` module (not under `src/`), so it enters here as the parameter
`dem`, the list of ground-normalized elevations, one per point.  The method
only replaces the `z` column of `points`; the cached columns and the header
are not touched.  The result is the post-call state of `self.las`. -/
def Cloud.normalize (c : Cloud) (dem : List ℚ) : Option CloudData :=
  match c.las with
  | none => none
  | some cd => some { cd with points := zipWithZ cd.points dem }

theorem clip_on_data (cd : CloudData) (g : Geometry) :
    Cloud.clip ⟨some cd⟩ g = clipData cd g := rfl

theorem filter_z_on_data (cd : CloudData) (mn mx : ℚ) :
    Cloud.filter_z ⟨some cd⟩ mn mx = filterZData cd mn mx := rfl

theorem normalize_on_data (cd : CloudData) (dem : List ℚ) :
    Cloud.normalize ⟨some cd⟩ dem = some { cd with points := zipWithZ cd.points dem } := rfl

/-- The 3d-plot color normalization of `Cloud.plot3d`:
`(z - min(z)) / (max(z) - min(z))` over the cached `z` column; `none` when
the column is empty (Python `min` raises there). -/
def plot3dNormZ (cd : CloudData) : Option (List ℚ) :=
  match qmin cd.z, qmax cd.z with
  | some mn, some mx => some (cd.z.map (fun v => (v - mn) / (mx - mn)))
  | _, _ => none

/-- The coordinate-bounded-dataframe invariant: the header's `min`, `max`
and `count` fields agree with the coordinatewise minima and maxima and the
number of the stored points. -/
def boundedInv (cd : CloudData) : Prop :=
  qmin (cd.points.map PointRec.x) = some (headerOf cd.header).hmin.1 ∧
  qmin (cd.points.map PointRec.y) = some (headerOf cd.header).hmin.2.1 ∧
  qmin (cd.points.map PointRec.z) = some (headerOf cd.header).hmin.2.2 ∧
  qmax (cd.points.map PointRec.x) = some (headerOf cd.header).hmax.1 ∧
  qmax (cd.points.map PointRec.y) = some (headerOf cd.header).hmax.2.1 ∧
  qmax (cd.points.map PointRec.z) = some (headerOf cd.header).hmax.2.2 ∧
  (headerOf cd.header).count = cd.points.length

instance (cd : CloudData) : Decidable (boundedInv cd) := by
  unfold boundedInv; infer_instance

/-! Helper lemmas about the column reductions. -/

theorem qmin_eq_none {l : List ℚ} : qmin l = none ↔ l = [] := by
  cases l <;> simp [qmin]

theorem qmax_eq_none {l : List ℚ} : qmax l = none ↔ l = [] := by
  cases l <;> simp [qmax]

theorem qmin_le {l : List ℚ} {m : ℚ} (hm : qmin l = some m) :
    ∀ z ∈ l, m ≤ z := by
  induction l generalizing m with
  | nil => simp [qmin] at hm
  | cons a r ih =>
    intro z hz
    rw [qmin] at hm
    cases hr : qmin r with
    | none =>
      rw [hr] at hm
      have hre : r = [] := qmin_eq_none.mp hr
      subst hre
      simp at hz
      have hma : m = a := by simpa using hm.symm
      rw [hz]
      exact hma.le
    | some m' =>
      rw [hr] at hm
      have hmm : m = Min.min a m' := by simpa using hm.symm
      rcases List.mem_cons.mp hz with hza | hzr
      · subst hza; rw [hmm]; exact min_le_left _ _
      · exact le_trans (hmm ▸ min_le_right a m') (ih hr z hzr)

theorem le_qmax {l : List ℚ} {m : ℚ} (hm : qmax l = some m) :
    ∀ z ∈ l, z ≤ m := by
  induction l generalizing m with
  | nil => simp [qmax] at hm
  | cons a r ih =>
    intro z hz
    rw [qmax] at hm
    cases hr : qmax r with
    | none =>
      rw [hr] at hm
      have hre : r = [] := qmax_eq_none.mp hr
      subst hre
      simp at hz
      have hma : m = a := by simpa using hm.symm
      rw [hz]
      exact hma.ge
    | some m' =>
      rw [hr] at hm
      have hmm : m = Max.max a m' := by simpa using hm.symm
      rcases List.mem_cons.mp hz with hza | hzr
      · subst hza; rw [hmm]; exact le_max_left _ _
      · exact le_trans (ih hr z hzr) (hmm ▸ le_max_right a m')

theorem qmin_lt_qmax {l : List ℚ} {a b mn mx : ℚ}
    (ha : a ∈ l) (hb : b ∈ l) (hab : a ≠ b)
    (hmn : qmin l = some mn) (hmx : qmax l = some mx) : mn < mx := by
  have h1 : mn ≤ Min.min a b := le_min (qmin_le hmn a ha) (qmin_le hmn b hb)
  have h2 : Max.max a b ≤ mx := max_le (le_qmax hmx a ha) (le_qmax hmx b hb)
  exact lt_of_le_of_lt h1 (lt_of_lt_of_le (min_lt_max.mpr hab) h2)

theorem qmin_mem {l : List ℚ} {m : ℚ} (hm : qmin l = some m) : m ∈ l := by
  induction l generalizing m with
  | nil => simp [qmin] at hm
  | cons a r ih =>
    rw [qmin] at hm
    cases hr : qmin r with
    | none =>
      rw [hr] at hm
      have : m = a := by simpa using hm.symm
      simp [this]
    | some m' =>
      rw [hr] at hm
      have hmm : m = Min.min a m' := by simpa using hm.symm
      rcases min_choice a m' with hc | hc
      · simp [hmm, hc]
      · rw [hmm, hc]
        exact List.mem_cons_of_mem a (ih hr)

theorem qmax_mem {l : List ℚ} {m : ℚ} (hm : qmax l = some m) : m ∈ l := by
  induction l generalizing m with
  | nil => simp [qmax] at hm
  | cons a r ih =>
    rw [qmax] at hm
    cases hr : qmax r with
    | none =>
      rw [hr] at hm
      have : m = a := by simpa using hm.symm
      simp [this]
    | some m' =>
      rw [hr] at hm
      have hmm : m = Max.max a m' := by simpa using hm.symm
      rcases max_choice a m' with hc | hc
      · simp [hmm, hc]
      · rw [hmm, hc]
        exact List.mem_cons_of_mem a (ih hr)

/-! Helper lemmas about the header bookkeeping. -/

theorem setBounds_spec {h h' : Header} {ps : List PointRec}
    (hs : setBounds h ps = some h') :
    qmin (ps.map PointRec.x) = some h'.hmin.1 ∧
    qmin (ps.map PointRec.y) = some h'.hmin.2.1 ∧
    qmin (ps.map PointRec.z) = some h'.hmin.2.2 ∧
    qmax (ps.map PointRec.x) = some h'.hmax.1 ∧
    qmax (ps.map PointRec.y) = some h'.hmax.2.1 ∧
    qmax (ps.map PointRec.z) = some h'.hmax.2.2 ∧
    h'.count = ps.length ∧ h'.meta = h.meta := by
  unfold setBounds at hs
  split at hs
  · next ax ay az bx mby bz h1 h2 h3 h4 h5 h6 =>
      cases hs
      exact ⟨h1, h2, h3, h4, h5, h6, rfl, rfl⟩
  · cases hs

theorem qmin_cons (a : ℚ) (r : List ℚ) : ∃ v, qmin (a :: r) = some v := ⟨_, rfl⟩

theorem qmax_cons (a : ℚ) (r : List ℚ) : ∃ v, qmax (a :: r) = some v := ⟨_, rfl⟩

theorem setBounds_cons (h : Header) (p : PointRec) (ps : List PointRec) :
    ∃ h', setBounds h (p :: ps) = some h' := by
  obtain ⟨a1, e1⟩ := qmin_cons (PointRec.x p) (ps.map PointRec.x)
  obtain ⟨a2, e2⟩ := qmin_cons (PointRec.y p) (ps.map PointRec.y)
  obtain ⟨a3, e3⟩ := qmin_cons (PointRec.z p) (ps.map PointRec.z)
  obtain ⟨b1, f1⟩ := qmax_cons (PointRec.x p) (ps.map PointRec.x)
  obtain ⟨b2, f2⟩ := qmax_cons (PointRec.y p) (ps.map PointRec.y)
  obtain ⟨b3, f3⟩ := qmax_cons (PointRec.z p) (ps.map PointRec.z)
  unfold setBounds
  rw [List.map_cons, List.map_cons, List.map_cons, e1, e2, e3, f1, f2, f3]
  exact ⟨_, rfl⟩

theorem headerOf_setHB (hd : LasHeader) (mn mx : ℚ × ℚ × ℚ) (c : ℕ) :
    headerOf (setHB hd mn mx c) =
      { headerOf hd with hmin := mn, hmax := mx, count := c } := by
  cases hd <;> rfl

theorem mkCloudData_spec {ps : List PointRec} {hd : LasHeader}
    {r : CloudData × LasHeader} (hm : mkCloudData ps hd = some r) :
    ∃ h1, setBounds (headerOf hd) ps = some h1 ∧
      r.1.points = ps ∧ r.1.x = ps.map PointRec.x ∧ r.1.y = ps.map PointRec.y ∧
      r.1.z = ps.map PointRec.z ∧ headerOf r.1.header = h1 ∧
      (∀ h0, hd = .manager h0 → r.1.header = .manager h1 ∧ r.2 = hd) ∧
      (∀ h0, hd = .other h0 → r.1.header = .other h1 ∧ r.2 = .other h1) := by
  unfold mkCloudData at hm
  split at hm
  · cases hm
  · next h1 hset =>
      refine ⟨h1, hset, ?_⟩
      split at hm <;> cases hm <;>
        simp [headerOf]

theorem boundedInv_of_mk {ps : List PointRec} {hd : LasHeader}
    {r : CloudData × LasHeader} (hm : mkCloudData ps hd = some r) :
    boundedInv r.1 := by
  obtain ⟨h1, hset, hps, -, -, -, hh, -, -⟩ := mkCloudData_spec hm
  obtain ⟨s1, s2, s3, s4, s5, s6, s7, -⟩ := setBounds_spec hset
  rw [boundedInv, hps, hh]
  exact ⟨s1, s2, s3, s4, s5, s6, s7⟩

theorem maskFilter_subset (ps : List PointRec) (mask : List Bool) :
    ∀ p ∈ maskFilter ps mask, p ∈ ps := by
  intro p hp
  unfold maskFilter at hp
  obtain ⟨⟨q, b⟩, hmem, hq⟩ := List.mem_filterMap.mp hp
  have hqp : q = p := by
    by_cases hb : b = true
    · simpa [hb] using hq
    · simp [Bool.eq_false_iff.mpr hb] at hq
  exact hqp ▸ List.of_mem_zip hmem |>.1

theorem zipWithZ_length (ps : List PointRec) (dem : List ℚ)
    (hlen : dem.length = ps.length) :
    (zipWithZ ps dem).length = ps.length := by
  simp [zipWithZ, hlen]

theorem zipWithZ_getD (ps : List PointRec) (dem : List ℚ) (i : ℕ)
    (hi : i < ps.length) (hlen : dem.length = ps.length) :
    (zipWithZ ps dem).getD i default =
      { ps.getD i default with z := dem.getD i 0 } := by
  induction ps generalizing dem i with
  | nil => simp at hi
  | cons p pr ih =>
    cases dem with
    | nil => simp at hlen
    | cons v vr =>
      cases i with
      | zero => simp [zipWithZ]
      | succ j =>
        have hj : j < pr.length := Nat.lt_of_succ_lt_succ hi
        have hl : vr.length = pr.length := Nat.succ_injective hlen
        simpa [zipWithZ, List.getD_cons_succ] using ih vr j hj hl

theorem lasPoints_length (f : LasFile) : (lasPoints f).length = f.x.length := by
  simp [lasPoints]

theorem lasPoints_getD (f : LasFile) (i : ℕ) (hi : i < f.x.length) :
    (lasPoints f).getD i default =
      { x := f.x.getD i 0, y := f.y.getD i 0, z := f.z.getD i 0,
        intensity := f.intensity.getD i 0,
        classification := f.classification.getD i 0,
        flag_byte := f.flag_byte.getD i 0,
        scan_angle_rank := f.scan_angle_rank.getD i 0,
        user_data := f.user_data.getD i 0,
        pt_src_id := f.pt_src_id.getD i 0 } := by
  unfold lasPoints
  rw [List.getD_eq_getElem _ _ (by simpa using hi)]
  simp

theorem clipData_spec {cd : CloudData} {g : Geometry} {cl : Cloud} {hp : LasHeader}
    (hc : clipData cd g = some (cl, hp)) :
    ∃ keep r, mkCloudData keep cd.header = some r ∧ cl = ⟨some r.1⟩ ∧ hp = r.2 ∧
      ((∃ bbox, g = .square bbox ∧ keep = maskFilter cd.points (square_clip cd bbox)) ∨
       (∃ pg, g = .polygon pg ∧ keep = poly_clip cd pg)) := by
  cases g with
  | square bbox =>
    obtain ⟨r, hr, heq⟩ := Option.map_eq_some'.mp hc
    obtain ⟨hcl, hhp⟩ := Prod.mk.injEq .. ▸ heq
    exact ⟨_, r, hr, hcl.symm, hhp.symm, Or.inl ⟨bbox, rfl, rfl⟩⟩
  | polygon pg =>
    obtain ⟨r, hr, heq⟩ := Option.map_eq_some'.mp hc
    obtain ⟨hcl, hhp⟩ := Prod.mk.injEq .. ▸ heq
    exact ⟨_, r, hr, hcl.symm, hhp.symm, Or.inr ⟨pg, rfl, rfl⟩⟩
  | circle c r => cases hc

/-! Concrete sample data used by the closed theorems. -/

/-- Sample point at the origin. -/
def pA : PointRec := ⟨0, 0, 0, 0, 0, 0, 0, 0, 0⟩

/-- Sample point with coordinates (1, 2, 3). -/
def pB : PointRec := ⟨1, 2, 3, 4, 5, 6, 7, 8, 9⟩

/-- A sample header object that is not a `HeaderManager`. -/
def hdr0 : Header := ⟨(0, 0, 0), (0, 0, 0), 0, 7⟩

/-- The bounds of `[pA, pB]` written into `hdr0`. -/
def hdrS : Header := ⟨(0, 0, 0), (1, 2, 3), 2, 7⟩

/-- A sample `CloudData` holding `[pA, pB]` with a non-`HeaderManager`
header whose bookkeeping fields are stale. -/
def cdS : CloudData := ⟨[pA, pB], [0, 1], [0, 2], [0, 3], .other hdr0⟩

/-- The `CloudData` produced from `[pA, pB]` with its bounds set. -/
def cdB : CloudData := ⟨[pA, pB], [0, 1], [0, 2], [0, 3], .other hdrS⟩

/-- The `CloudData` produced from `[pA, pB]` under a copied
`HeaderManager`. -/
def cdM : CloudData := ⟨[pA, pB], [0, 1], [0, 2], [0, 3], .manager hdrS⟩

/-- The `CloudData` left by `normalize` on `cdB` with DEM column
`[10, 20]`: the `z` column is replaced, the header is not touched. -/
def cdBn : CloudData :=
  ⟨[⟨0, 0, 10, 0, 0, 0, 0, 0, 0⟩, ⟨1, 2, 20, 4, 5, 6, 7, 8, 9⟩],
   [0, 1], [0, 2], [0, 3], .other hdrS⟩

/-- A sample las file with two points whose columns give `[pA, pB]`. -/
def lfW : LasFile :=
  ⟨[0, 1], [0, 2], [0, 3], [0, 4], [0, 5], [0, 6], [0, 7], [0, 8], [0, 9], hdr0⟩

/-- A sample output path. -/
def outPath : String := "out.las"

/-! Claim theorems. -/

/-- C1: the `clip` docstring advertises three geometry kinds (bounding-box
4-tuple, OGR polygon, point-and-radius circle).  The square and the polygon
branches do return a clipped Cloud, but a point-and-radius tuple matches no
branch of the method, so `keep_points` is never assigned and the `return`
raises `UnboundLocalError`: the code contradicts its own docstring. -/
theorem c1_clip_circle_raises :
    (Cloud.clip ⟨some cdS⟩ (Geometry.square (0, 2, 0, 3))).isSome = true ∧
    (Cloud.clip ⟨some cdS⟩ (Geometry.polygon ⟨fun _ _ => true⟩)).isSome = true ∧
    Cloud.clip ⟨some cdS⟩ (Geometry.circle (0, 0) 5) = none :=
  ⟨rfl, rfl, rfl⟩

/-- C2: `filter_z` can never perform the claimed filtering.  Its filter
condition reads `self.las.points[:, 2]` — a numpy-style positional slice of
the pandas dataframe — which raises `TypeError` on every input, before any
point is filtered or any header field reformed.  The claim describes the
docstring's intent ("Filters a cloud object based on Z heights"); the
method body was never updated from an earlier array-backed representation
(the module's "update this to new pandas framework" TODOs mark the
migration), so the code fails on every call. -/
theorem c2_filter_z_raises (cd : CloudData) (mn mx : ℚ) :
    Cloud.filter_z ⟨some cd⟩ mn mx = none := rfl

/-- C3 (amended): the header bookkeeping invariant holds after
`CloudData.__init__` and after every completed `clip`.  It does not
survive the other two mutating operations as claimed: `normalize` replaces
the `z` column without reforming the header (see the counterexample), and
`filter_z` never completes at all — its dataframe indexing raises
`TypeError` before mutating anything, so it produces no post-state (last
conjunct). -/
theorem c3_bounded_after_ops
    (ps : List PointRec) (hd : LasHeader) (r : CloudData × LasHeader)
    (cd1 : CloudData) (mn mx : ℚ)
    (cd3 : CloudData) (g : Geometry) (cl : Cloud) (hp : LasHeader) (cd4 : CloudData)
    (h1 : mkCloudData ps hd = some r)
    (h3 : Cloud.clip ⟨some cd3⟩ g = some (cl, hp))
    (h4 : cl.las = some cd4) :
    boundedInv r.1 ∧ boundedInv cd4 ∧ Cloud.filter_z ⟨some cd1⟩ mn mx = none := by
  refine ⟨boundedInv_of_mk h1, ?_, rfl⟩
  rw [clip_on_data] at h3
  obtain ⟨keep, rr, hmk, hcl, -, -⟩ := clipData_spec h3
  have : rr.1 = cd4 := by
    rw [hcl] at h4
    exact Option.some_inj.mp h4
  exact this ▸ boundedInv_of_mk hmk

/-- C3 witness: the invariant after a concrete construction and a concrete
square `clip`, and the failure of a concrete `filter_z` call. -/
theorem c3_witness :
    boundedInv cdB ∧ boundedInv cdB ∧ Cloud.filter_z ⟨some cdS⟩ (-1) 1 = none :=
  c3_bounded_after_ops [pA, pB] (LasHeader.other hdr0) (cdB, LasHeader.other hdrS)
    cdS (-1) 1 cdS (Geometry.square (0, 2, 0, 3)) ⟨some cdB⟩ (LasHeader.other hdrS) cdB
    (by decide) (by decide) rfl

/-- C3 counterexample: a freshly constructed `CloudData` satisfies the
invariant, but `normalize` with the DEM column `[10, 20]` replaces the `z`
column without updating the header, and the invariant fails afterwards. -/
theorem c3_normalize_breaks_invariant :
    mkCloudData [pA, pB] (LasHeader.other hdr0) = some (cdB, LasHeader.other hdrS) ∧
    Cloud.normalize ⟨some cdB⟩ [10, 20] = some cdBn ∧
    ¬ boundedInv cdBn := by
  refine ⟨by decide, by decide, ?_⟩
  decide

/-- C4: `normalize` only replaces the `z` column of the points with the
DEM-normalized elevations; the `x` and `y` coordinates, the six other
point attributes, and the number of points are unchanged. -/
theorem c4_normalize_frame (cd : CloudData) (dem : List ℚ) (cd' : CloudData)
    (hlen : dem.length = cd.points.length)
    (hn : Cloud.normalize ⟨some cd⟩ dem = some cd') :
    cd'.points.length = cd.points.length ∧
    ∀ i, i < cd.points.length →
      (cd'.points.getD i default).x = (cd.points.getD i default).x ∧
      (cd'.points.getD i default).y = (cd.points.getD i default).y ∧
      (cd'.points.getD i default).intensity = (cd.points.getD i default).intensity ∧
      (cd'.points.getD i default).classification = (cd.points.getD i default).classification ∧
      (cd'.points.getD i default).flag_byte = (cd.points.getD i default).flag_byte ∧
      (cd'.points.getD i default).scan_angle_rank = (cd.points.getD i default).scan_angle_rank ∧
      (cd'.points.getD i default).user_data = (cd.points.getD i default).user_data ∧
      (cd'.points.getD i default).pt_src_id = (cd.points.getD i default).pt_src_id ∧
      (cd'.points.getD i default).z = dem.getD i 0 := by
  rw [normalize_on_data] at hn
  have hcd : cd' = { cd with points := zipWithZ cd.points dem } := (Option.some_inj.mp hn).symm
  subst hcd
  refine ⟨zipWithZ_length cd.points dem hlen, ?_⟩
  intro i hi
  have hrow := zipWithZ_getD cd.points dem i hi hlen
  dsimp only
  rw [hrow]
  exact ⟨rfl, rfl, rfl, rfl, rfl, rfl, rfl, rfl, rfl⟩

/-- C4 witness: a concrete `normalize` run on a two-point cloud. -/
theorem c4_witness :
    cdBn.points.length = cdB.points.length ∧
    (cdBn.points.getD 0 default).x = (cdB.points.getD 0 default).x ∧
    (cdBn.points.getD 0 default).z = (10 : ℚ) := by
  have h := c4_normalize_frame cdB [10, 20] cdBn (by decide) (by decide)
  have hrow := h.2 0 (by decide)
  exact ⟨h.1, hrow.1, hrow.2.2.2.2.2.2.2.2.trans (by decide)⟩

/-- C5: when the source cloud's header is not a `HeaderManager`, the
`CloudData` constructed by `clip` aliases that header object and overwrites
its `min`, `max` and `count` fields with the bounds and count of the
clipped point set, so the source cloud's header reference observes the
clipped bounds after the call. -/
theorem c5_clip_aliases_header (cd : CloudData) (h0 : Header) (g : Geometry)
    (cl : Cloud) (hp : LasHeader) (cd' : CloudData)
    (hh : cd.header = LasHeader.other h0)
    (hc : Cloud.clip ⟨some cd⟩ g = some (cl, hp))
    (hl : cl.las = some cd') :
    hp = cd'.header ∧ boundedInv cd' ∧ (headerOf hp ≠ h0 → hp ≠ cd.header) := by
  rw [clip_on_data] at hc
  obtain ⟨keep, r, hmk, hcl, hhp, -⟩ := clipData_spec hc
  have hr1 : r.1 = cd' := by
    rw [hcl] at hl
    exact Option.some_inj.mp hl
  obtain ⟨h1, -, -, -, -, -, -, -, hother⟩ := mkCloudData_spec hmk
  obtain ⟨hhd, hr2⟩ := hother h0 hh
  refine ⟨?_, hr1 ▸ boundedInv_of_mk hmk, ?_⟩
  · rw [hhp, hr2, ← hr1, hhd]
  · intro hne heq
    rw [heq, hh] at hne
    exact hne rfl

/-- C5 witness: a concrete square clip on a cloud with a
non-`HeaderManager` header; the source header reference afterwards holds
the clipped bounds. -/
theorem c5_witness :
    LasHeader.other hdrS = cdB.header ∧ boundedInv cdB ∧
    (headerOf (LasHeader.other hdrS) ≠ hdr0 → LasHeader.other hdrS ≠ cdS.header) :=
  c5_clip_aliases_header cdS hdr0 (Geometry.square (0, 2, 0, 3))
    ⟨some cdB⟩ (LasHeader.other hdrS) cdB rfl (by decide) rfl

/-- C6: constructing a `Cloud` from a las file path loads a dataframe with
exactly the nine advertised columns (the fields of `PointRec`), one row per
point of the file, wrapped in a `CloudData` holding the file's header (as a
`HeaderManager` copy whose bound fields are recomputed from the points and
whose other metadata is the file's). -/
theorem c6_load_columns (f : LasFile) (cd : CloudData)
    (hm : mkCloud (CloudSource.path f) = some ⟨some cd⟩) :
    cd.points.length = f.x.length ∧
    (∀ i, i < f.x.length → cd.points.getD i default =
      { x := f.x.getD i 0, y := f.y.getD i 0, z := f.z.getD i 0,
        intensity := f.intensity.getD i 0,
        classification := f.classification.getD i 0,
        flag_byte := f.flag_byte.getD i 0,
        scan_angle_rank := f.scan_angle_rank.getD i 0,
        user_data := f.user_data.getD i 0,
        pt_src_id := f.pt_src_id.getD i 0 }) ∧
    ∃ h1, cd.header = LasHeader.manager h1 ∧ h1.meta = f.header.meta ∧
      h1.count = f.x.length := by
  unfold mkCloud at hm
  obtain ⟨r, hr, heq⟩ := Option.map_eq_some'.mp hm
  have hcd : r.1 = cd := by
    have := congrArg Cloud.las heq
    exact Option.some_inj.mp this
  obtain ⟨h1, hset, hps, -, -, -, hhof, hman, -⟩ := mkCloudData_spec hr
  obtain ⟨hhd, -⟩ := hman f.header rfl
  obtain ⟨-, -, -, -, -, -, hcount, hmeta⟩ := setBounds_spec hset
  subst hcd
  refine ⟨?_, ?_, h1, hhd, ?_, ?_⟩
  · rw [hps, lasPoints_length]
  · intro i hi
    rw [hps]
    exact lasPoints_getD f i hi
  · exact hmeta.trans rfl
  · rw [hcount, lasPoints_length]

/-- C6 witness: loading a concrete two-point las file. -/
theorem c6_witness :
    cdM.points.length = lfW.x.length ∧ cdM.points.getD 1 default = pB := by
  have h := c6_load_columns lfW cdM (by decide)
  refine ⟨h.1, ?_⟩
  have := h.2.1 1 (by decide)
  exact this.trans (by decide)

/-- C7: `CloudData.write(path)` writes the points to the file exactly when
the header is a `laspy.header.HeaderManager`; with any other header it
writes nothing, raises nothing, and leaves the points and the header
unchanged. -/
theorem c7_write_guard (cd : CloudData) (path : String) :
    ((∃ h0, cd.header = LasHeader.manager h0) →
      (cd.write path).1 = some (path, cd.points)) ∧
    ((¬ ∃ h0, cd.header = LasHeader.manager h0) → (cd.write path).1 = none) ∧
    (cd.write path).2 = cd := by
  obtain ⟨ps, xs, ys, zs, hd⟩ := cd
  cases hd with
  | manager h =>
    exact ⟨fun _ => rfl, fun hno => absurd ⟨h, rfl⟩ hno, rfl⟩
  | other h =>
    refine ⟨?_, fun _ => rfl, rfl⟩
    rintro ⟨h0, hcontra⟩
    cases hcontra

/-- C7 witness: writing with a non-`HeaderManager` header is a no-op. -/
theorem c7_witness :
    (CloudData.write cdS outPath).1 = none ∧ (CloudData.write cdS outPath).2 = cdS := by
  refine ⟨(c7_write_guard cdS outPath).2.1 ?_, (c7_write_guard cdS outPath).2.2⟩
  rintro ⟨h0, hcontra⟩
  rw [show cdS.header = LasHeader.other hdr0 from rfl] at hcontra
  cases hcontra

/-- C8: for a 4-tuple geometry, `clip` returns a new Cloud whose point set
is exactly the subset of the original points selected by the boolean mask
computed by the external collaborator `clip_funcs.square_clip`; the module
performs no containment test of its own (the mask enters as a black box and
the kept rows come from `points[mask]`). -/
theorem c8_square_clip_mask (cd : CloudData) (bbox : ℚ × ℚ × ℚ × ℚ)
    (cl : Cloud) (hp : LasHeader) (cd' : CloudData)
    (hc : Cloud.clip ⟨some cd⟩ (Geometry.square bbox) = some (cl, hp))
    (hl : cl.las = some cd') :
    cd'.points = maskFilter cd.points (square_clip cd bbox) ∧
    ∀ p ∈ cd'.points, p ∈ cd.points := by
  rw [clip_on_data] at hc
  obtain ⟨keep, r, hmk, hcl, -, hgeom⟩ := clipData_spec hc
  have hr1 : r.1 = cd' := by
    rw [hcl] at hl
    exact Option.some_inj.mp hl
  obtain ⟨-, -, hps, -, -, -, -, -, -⟩ := mkCloudData_spec hmk
  have hkeep : keep = maskFilter cd.points (square_clip cd bbox) := by
    rcases hgeom with ⟨bbox', hb, hk⟩ | ⟨pg, hb, -⟩
    · cases hb
      exact hk
    · cases hb
  have hpts : cd'.points = maskFilter cd.points (square_clip cd bbox) := by
    rw [← hr1, hps, hkeep]
  exact ⟨hpts, fun p hp => maskFilter_subset cd.points (square_clip cd bbox) p (hpts ▸ hp)⟩

/-- C8 witness: a concrete square clip; the clipped points are the masked
subset of the originals. -/
theorem c8_witness :
    cdB.points = maskFilter cdS.points (square_clip cdS (0, 2, 0, 3)) ∧
    ∀ p ∈ cdB.points, p ∈ cdS.points :=
  c8_square_clip_mask cdS (0, 2, 0, 3) ⟨some cdB⟩ (LasHeader.other hdrS) cdB
    (by decide) rfl

/-- C9: the `Cloud` constructor, given an input that is neither a path
string nor a `CloudData` (a `laspy.file.File` object included), raises no
exception: it prints a message and returns a Cloud whose `las` attribute
was never set. -/
theorem c9_unsupported_input (obj : ℤ) :
    mkCloud (CloudSource.other obj) = some ⟨none⟩ := rfl

/-- C10: the `plot3d` color normalization `(z - min(z)) / (max(z) - min(z))`
maps every point into `[0, 1]` whenever the cloud has at least two distinct
`z` values; when all `z` values are equal the denominator of the division
is zero. -/
theorem c10_plot3d_normalization (cd : CloudData) :
    ((∃ a ∈ cd.z, ∃ b ∈ cd.z, a ≠ b) →
      ∀ l, plot3dNormZ cd = some l → ∀ v ∈ l, 0 ≤ v ∧ v ≤ 1) ∧
    ((∀ a ∈ cd.z, ∀ b ∈ cd.z, a = b) →
      ∀ mn ∈ qmin cd.z, ∀ mx ∈ qmax cd.z, mx - mn = 0) := by
  constructor
  · rintro ⟨a, ha, b, hb, hab⟩ l hl v hv
    unfold plot3dNormZ at hl
    split at hl
    · next mn mx hmn hmx =>
        cases hl
        obtain ⟨z, hz, hvz⟩ := List.mem_map.mp hv
        have hlt : mn < mx := qmin_lt_qmax ha hb hab hmn hmx
        have hpos : 0 < mx - mn := sub_pos.mpr hlt
        subst hvz
        constructor
        · exact div_nonneg (sub_nonneg.mpr (qmin_le hmn z hz)) hpos.le
        · exact (div_le_one hpos).mpr (sub_le_sub_right (le_qmax hmx z hz) mn)
    · cases hl
  · intro hall mn hmn mx hmx
    have hmn' : qmin cd.z = some mn := Option.mem_def.mp hmn
    have hmx' : qmax cd.z = some mx := Option.mem_def.mp hmx
    exact sub_eq_zero_of_eq (hall mx (qmax_mem hmx') mn (qmin_mem hmn'))

/-- C10 witness: a cloud with `z` values 0 and 3 gives the normalized
column `[0, 1]`, whose entries the theorem places in `[0, 1]`. -/
theorem c10_witness :
    plot3dNormZ cdB = some [0, 1] ∧ (0 ≤ (1 : ℚ) ∧ (1 : ℚ) ≤ 1) := by
  have hmn : qmin cdB.z = some 0 := by decide
  have hmx : qmax cdB.z = some 3 := by decide
  have hz : cdB.z = [0, 3] := rfl
  have heq : plot3dNormZ cdB = some [0, 1] := by
    unfold plot3dNormZ
    rw [hmn, hmx, hz]
    norm_num
  exact ⟨heq,
    (c10_plot3d_normalization cdB).1 ⟨0, by decide, 3, by decide, by decide⟩
      [0, 1] heq 1 (by norm_num)⟩

end Pyfor
